import Mathlib

/-!
Verification of the coal-web metric pipeline (src/coal/coal_web.py).

The embedding models floats as exact rationals (`ℚ`), Python `None` as
`Option.none`, raised exceptions as `Except.error`, and the Flask layer's
observable behaviour (status code and error body) as explicit result values.
Network effects are abstracted by passing the backend's decoded `datapoints`
payload (per metric) as an argument.
-/

/-- The five tracked metric names, in the fixed iteration order of the
`METRICS` tuple in coal_web.py. -/
def METRICS : List String :=
  ["responseStart", "firstPaint", "domInteractive", "loadEventEnd", "saveTiming"]

/-- The `PERIODS` mapping from period name to its length in seconds.
`year` is `int(60*60*24*365.25) = 31557600`. -/
def PERIODS : List (String × ℕ) :=
  [("hour", 60 * 60),
   ("day", 60 * 60 * 24),
   ("week", 60 * 60 * 24 * 7),
   ("month", 60 * 60 * 24 * 30),
   ("year", 31557600)]

/-- Fuel-indexed worker for `chunks`: peels `chunk_size` elements per step. -/
def chunksAux (chunk_size : ℕ) : ℕ → List α → List (List α)
  | _, [] => []
  | 0, _ :: _ => []
  | fuel + 1, a :: rest =>
    (a :: rest).take chunk_size :: chunksAux chunk_size fuel ((a :: rest).drop chunk_size)

/-- `chunks(items, chunk_size)`: split `items` into contiguous sub-lists of
size `chunk_size` (Python: `items[index:index+chunk_size]` for
`index in range(0, len(items), chunk_size)`), written with a structural fuel
argument (each step consumes at least one element, so `items.length` fuel is
always enough).  Python's `range` raises `ValueError` when `chunk_size = 0`;
callers (`resample`) surface that case as an error before the chunk list is
consumed, so the value returned here for `chunk_size = 0` is never
observed. -/
def chunks (items : List α) (chunk_size : ℕ) : List (List α) :=
  if chunk_size = 0 then [] else chunksAux chunk_size items.length items

/-- Insert a value into an ascending-sorted list, keeping it sorted. -/
def insertSorted (a : ℚ) : List ℚ → List ℚ
  | [] => [a]
  | b :: bs => if a ≤ b then a :: b :: bs else b :: insertSorted a bs

/-- Sort a list of rationals ascending (insertion sort; every sorting
algorithm produces the same list of values, so this matches numpy's sort). -/
def sortRats : List ℚ → List ℚ
  | [] => []
  | a :: as => insertSorted a (sortRats as)

/-- `numpy.median` on a list of rationals: sort, take the middle element
(odd length) or the mean of the two middle elements (even length). -/
def median (l : List ℚ) : ℚ :=
  let s := sortRats l
  let n := s.length
  if n % 2 = 1 then s.getD (n / 2) 0
  else (s.getD (n / 2 - 1) 0 + s.getD (n / 2) 0) / 2

/-- Round to the nearest integer, ties to even: the rounding mode of
Python 3's built-in `round`, idealized over exact rationals. -/
def round_half_even (q : ℚ) : ℤ :=
  let f := q.floor
  if q - f < 1 / 2 then f
  else if (1 : ℚ) / 2 < q - f then f + 1
  else if f % 2 = 0 then f else f + 1

/-- Python `round(pt, 1)`: round to the nearest multiple of 1/10,
ties to even (idealized over exact rationals). -/
def round1 (q : ℚ) : ℚ := (round_half_even (q * 10) : ℚ) / 10

/-- The piecewise-linear interpolant of `numpy.interp` over an increasing
list of `(x, y)` sample points: values are clamped to the first `y` left of
the first `x` and to the last `y` right of the last `x`. -/
def interpPoints (x : ℚ) : List (ℚ × ℚ) → ℚ
  | [] => 0
  | [(_, y0)] => y0
  | (x0, y0) :: (x1, y1) :: rest =>
    if x ≤ x0 then y0
    else if x ≤ x1 then y0 + (y1 - y0) * (x - x0) / (x1 - x0)
    else interpPoints x ((x1, y1) :: rest)

/-- `interpolate_missing(sparse_list)`: collect the indices and values of the
present entries (`x_vals`, `y_vals`) and the indices of the absent entries
(`x_blanks`); if there are blanks, fill each with `numpy.interp` over the
present points (which raises — here `none` — when there are no present
points at all); present entries are returned unchanged. -/
def interpolate_missing (sparse_list : List (Option ℚ)) : Option (List ℚ) :=
  if sparse_list.any (fun o => o.isNone) &&
      (sparse_list.enum.filterMap fun p => p.2.map fun y => ((p.1 : ℚ), y)).isEmpty then
    none
  else some (sparse_list.enum.map fun p =>
    match p.2 with
    | some y => y
    | none => interpPoints (p.1 : ℚ)
        (sparse_list.enum.filterMap fun p => p.2.map fun y => ((p.1 : ℚ), y)))

/-- The per-chunk filtering `[sample for sample in chunk if sample]`:
keep the samples that are truthy, i.e. present and nonzero. -/
def chunk_samples (chunk : List (Option ℚ)) : List ℚ :=
  (chunk.filterMap id).filter fun s => decide (s ≠ 0)

/-- One chunk's output point: the median of its truthy samples, or absent
when no truthy sample remains. -/
def chunk_point (chunk : List (Option ℚ)) : Option ℚ :=
  if chunk_samples chunk = [] then none else some (median (chunk_samples chunk))

/-- The resampling block of `fetch_metric` (lines 119–130): chunk the raw
samples, take each chunk's point, and — when `any(points)` holds, i.e. some
point is present and nonzero — interpolate the gaps and round each value to
one decimal; otherwise return the empty list.  A `samples_per_point` of 0
reproduces the `ValueError` raised by `range` inside `chunks`. -/
def resample (all_samples : List (Option ℚ)) (samples_per_point : ℕ) :
    Except String (List ℚ) :=
  if samples_per_point = 0 then
    Except.error "ValueError: range() arg 3 must not be zero"
  else if ((chunks all_samples samples_per_point).map chunk_point).any
      (fun p => decide (p.getD 0 ≠ 0)) then
    match interpolate_missing ((chunks all_samples samples_per_point).map chunk_point) with
    | none => Except.error "ValueError: array of sample points is empty"
    | some dense => Except.ok (dense.map round1)
  else Except.ok []

/-- The result dictionary built by `fetch_metric`. `end_` models the
Python key `end`. -/
structure MetricResult where
  start : ℤ
  end_ : ℤ
  step : ℕ
  points : List ℚ
deriving DecidableEq

/-- `fetch_metric(metric, period)` applied to the decoded `datapoints` array
of the backend response: pairs of `(value, timestamp)`.  With fewer than 2
datapoints the function raises; otherwise `start`/`end` come from the first
and last timestamps, `samples_per_point = len(all_samples) // 60`, the
samples are resampled, and `step = period // 60`. -/
def fetch_metric (raw_points : List (Option ℚ × ℤ)) (period : ℕ) :
    Except String MetricResult :=
  if 1 < raw_points.length then
    match resample (raw_points.map Prod.fst) ((raw_points.map Prod.fst).length / 60) with
    | Except.error e => Except.error e
    | Except.ok points =>
      Except.ok { start := (raw_points.headD (none, 0)).2,
                  end_ := (raw_points.getLastD (none, 0)).2,
                  step := period / 60, points := points }
  else Except.error "No datapoints were retrieved"

instance {ε α : Type} [DecidableEq ε] [DecidableEq α] : DecidableEq (Except ε α) := fun
  | Except.ok a, Except.ok b =>
    if h : a = b then isTrue (by rw [h]) else isFalse fun hh => h (Except.ok.inj hh)
  | Except.error e, Except.error f =>
    if h : e = f then isTrue (by rw [h]) else isFalse fun hh => h (Except.error.inj hh)
  | Except.ok _, Except.error _ => isFalse fun hh => Except.noConfusion hh
  | Except.error _, Except.ok _ => isFalse fun hh => Except.noConfusion hh

/-- A backend is, per metric name, either a decoded `datapoints` payload or
a failure (network error, malformed JSON, ...). -/
def Backend : Type := String → Except String (List (Option ℚ × ℤ))

/-- One metric's fetch against a given backend: a backend failure or any
exception inside `fetch_metric` propagates to the caller. -/
def fetch_metric_from (backend : Backend) (metric : String) (period : ℕ) :
    Except String MetricResult :=
  match backend metric with
  | Except.error e => Except.error e
  | Except.ok raw => fetch_metric raw period

/-- A JSON error envelope together with its HTTP status code, as produced by
`flask.jsonify(error=...), 401`. -/
structure ErrorResponse where
  error : String
  status : ℕ
deriving DecidableEq

/-- The success envelope of `get_metrics`: `start`/`end`/`step` from the last
`data` value, and the insertion-ordered `points` mapping. -/
structure Envelope where
  start : ℤ
  end_ : ℤ
  step : ℕ
  points : List (String × List ℚ)
deriving DecidableEq

/-- The error body `'Unable to retrieve metric coal.{metric} from graphite
server'`. -/
def metric_error_msg (metric : String) : String :=
  "Unable to retrieve metric coal." ++ metric ++ " from graphite server"

/-- The loop of `get_metrics` over the remaining metrics.  Returns the
response outcome together with the list of metrics for which the backend was
actually consulted (in order).  `lastData` models the Python variable `data`,
which after the loop holds the last metric's result; `none` models the
(unreachable, since `METRICS` is nonempty) unbound-variable case. -/
def get_metrics_go (backend : Backend) (period : ℕ)
    (acc : List (String × List ℚ)) (lastData : Option MetricResult) :
    List String → Except ErrorResponse Envelope × List String
  | [] =>
    (match lastData with
     | none => Except.error { error := "NameError: data is not defined", status := 500 }
     | some data =>
       Except.ok { start := data.start, end_ := data.end_, step := data.step, points := acc },
     [])
  | m :: rest =>
    match fetch_metric_from backend m period with
    | Except.error _ =>
      (Except.error { error := metric_error_msg m, status := 401 }, [m])
    | Except.ok data =>
      let r := get_metrics_go backend period (acc ++ [(m, data.points)]) (some data) rest
      (r.1, m :: r.2)

/-- `get_metrics` (the `/v1/metrics` handler) on a cache miss: reject an
unrecognized period with a 401 error before touching the backend, otherwise
fetch every tracked metric in order, failing fast with a 401 error naming
the first metric whose fetch raises, and on full success build the envelope
from the accumulated points and the last metric's `data`. -/
def get_metrics (backend : Backend) (period_name : String) :
    Except ErrorResponse Envelope × List String :=
  match PERIODS.lookup period_name with
  | none => (Except.error { error := "Invalid value for \"period\".", status := 401 }, [])
  | some period => get_metrics_go backend period [] none METRICS

/-! Concrete inputs used by counterexamples and witnesses. -/

/-- A backend series of 61 datapoints, every value 1, timestamps 0..60. -/
def raw61 : List (Option ℚ × ℤ) := (List.range 61).map fun i => (some 1, (i : ℤ))

/-- A backend series of 60 datapoints, every value 1, timestamps 0..59. -/
def raw60 : List (Option ℚ × ℤ) := (List.range 60).map fun i => (some 1, (i : ℤ))

/-- A backend answering every metric with `raw60`. -/
def backend60 : Backend := fun _ => Except.ok raw60

/-- A backend failing for `domInteractive` and answering `raw60` otherwise. -/
def backendFail3 : Backend := fun m =>
  if m = "domInteractive" then Except.error "connection refused" else Except.ok raw60

/-- A backend answering every metric with a 2-sample series. -/
def backend2 : Backend := fun _ => Except.ok [(some 1, 0), (some 2, 60)]

/-! Helper lemmas about `chunks`. -/

lemma chunks_nil (k : ℕ) : chunks ([] : List α) k = [] := by
  unfold chunks
  split <;> rfl

lemma chunksAux_congr (k : ℕ) (hk : k ≠ 0) :
    ∀ fuel fuel' (l : List α), l.length ≤ fuel → l.length ≤ fuel' →
      chunksAux k fuel l = chunksAux k fuel' l := by
  intro fuel
  induction fuel with
  | zero =>
    intro fuel' l hl _
    have : l = [] := List.length_eq_zero.mp (Nat.le_zero.mp hl)
    subst this
    cases fuel' <;> rfl
  | succ n ih =>
    intro fuel' l hl hl'
    rcases l with _ | ⟨a, rest⟩
    · cases fuel' <;> rfl
    · rcases fuel' with _ | fuel'
      · simp at hl'
      · simp only [chunksAux]
        congr 1
        have hk1 : 1 ≤ k := Nat.one_le_iff_ne_zero.mpr hk
        apply ih
        · simp only [List.length_drop, List.length_cons] at hl ⊢
          omega
        · simp only [List.length_drop, List.length_cons] at hl' ⊢
          omega

lemma chunks_cons (l : List α) (k : ℕ) (hk : k ≠ 0) (hl : l ≠ []) :
    chunks l k = l.take k :: chunks (l.drop k) k := by
  obtain ⟨a, rest, rfl⟩ := List.exists_cons_of_ne_nil hl
  unfold chunks
  simp only [hk, if_false, List.length_cons, chunksAux]
  congr 1
  have hk1 : 1 ≤ k := Nat.one_le_iff_ne_zero.mpr hk
  apply chunksAux_congr k hk
  · simp only [List.length_drop, List.length_cons]
    omega
  · exact le_rfl

lemma chunks_eq_nil_iff (l : List α) (k : ℕ) (hk : k ≠ 0) :
    chunks l k = [] ↔ l = [] := by
  constructor
  · intro h
    by_contra hl
    rw [chunks_cons l k hk hl] at h
    exact List.cons_ne_nil _ _ h
  · intro h; rw [h]; exact chunks_nil k

lemma chunks_flatten (k : ℕ) (hk : k ≠ 0) :
    ∀ n (l : List α), l.length ≤ n → (chunks l k).flatten = l := by
  intro n
  induction n with
  | zero =>
    intro l hl
    have : l = [] := List.length_eq_zero.mp (Nat.le_zero.mp hl)
    rw [this, chunks_nil]; rfl
  | succ n ih =>
    intro l hl
    rcases eq_or_ne l [] with rfl | hne
    · rw [chunks_nil]; rfl
    · rw [chunks_cons l k hk hne, List.flatten_cons,
        ih (l.drop k) (by
          rw [List.length_drop]
          have h1 : l.length ≠ 0 := fun h => hne (List.length_eq_zero.mp h)
          omega)]
      exact List.take_append_drop k l

lemma chunks_length (k : ℕ) (hk : k ≠ 0) :
    ∀ n (l : List α), l.length ≤ n → l ≠ [] →
      (chunks l k).length = (l.length - 1) / k + 1 := by
  intro n
  induction n with
  | zero =>
    intro l hl hne
    exact absurd (List.length_eq_zero.mp (Nat.le_zero.mp hl)) hne
  | succ n ih =>
    intro l hl hne
    rw [chunks_cons l k hk hne]
    rcases eq_or_ne (l.drop k) [] with hd | hd
    · rw [hd, chunks_nil]
      have hlen : l.length ≤ k := by
        have := List.length_drop k l
        rw [hd] at this
        simp at this
        omega
      have h1 : l.length ≠ 0 := fun h => hne (List.length_eq_zero.mp h)
      have h2 : (l.length - 1) / k = 0 := Nat.div_eq_of_lt (by omega)
      simp [h2]
    · have hlk : k < l.length := by
        by_contra hc
        exact hd (List.drop_eq_nil_of_le (le_of_not_lt hc))
      rw [List.length_cons, ih (l.drop k) (by rw [List.length_drop]; omega) hd]
      rw [List.length_drop]
      have h2 : (l.length - 1) / k = (l.length - 1 - k) / k + 1 :=
        Nat.div_eq_sub_div (Nat.pos_of_ne_zero hk) (by omega)
      have h3 : l.length - 1 - k = l.length - k - 1 := by omega
      rw [h3] at h2
      omega

lemma chunks_mem_sublist (k : ℕ) (hk : k ≠ 0) :
    ∀ n (l : List α), l.length ≤ n → ∀ c ∈ chunks l k, ∀ a ∈ c, a ∈ l := by
  intro n
  induction n with
  | zero =>
    intro l hl c hc
    have : l = [] := List.length_eq_zero.mp (Nat.le_zero.mp hl)
    rw [this, chunks_nil] at hc
    exact absurd hc (List.not_mem_nil c)
  | succ n ih =>
    intro l hl c hc a ha
    rcases eq_or_ne l [] with rfl | hne
    · rw [chunks_nil] at hc
      exact absurd hc (List.not_mem_nil c)
    · rw [chunks_cons l k hk hne] at hc
      rcases List.mem_cons.mp hc with rfl | hc

      · exact List.mem_of_mem_take ha
      · have := ih (l.drop k) (by
          rw [List.length_drop]
          have h1 : l.length ≠ 0 := fun h => hne (List.length_eq_zero.mp h)
          omega) c hc a ha
        exact List.mem_of_mem_drop this

lemma chunks_dropLast_length (k : ℕ) (hk : k ≠ 0) :
    ∀ n (l : List α), l.length ≤ n → ∀ c ∈ (chunks l k).dropLast, c.length = k := by
  intro n
  induction n with
  | zero =>
    intro l hl c hc
    have : l = [] := List.length_eq_zero.mp (Nat.le_zero.mp hl)
    rw [this, chunks_nil] at hc
    exact absurd hc (List.not_mem_nil c)
  | succ n ih =>
    intro l hl c hc
    rcases eq_or_ne l [] with rfl | hne
    · rw [chunks_nil] at hc
      exact absurd hc (List.not_mem_nil c)
    · rw [chunks_cons l k hk hne] at hc
      rcases eq_or_ne (chunks (l.drop k) k) [] with hd | hd
      · rw [hd] at hc
        exact absurd hc (List.not_mem_nil c)
      · obtain ⟨c2, cs, hcs⟩ := List.exists_cons_of_ne_nil hd
        rw [hcs] at hc
        rw [List.dropLast_cons₂] at hc
        have hdk : l.drop k ≠ [] := by
          intro h
          rw [(chunks_eq_nil_iff (l.drop k) k hk).mpr h] at hd
          exact hd rfl
        have hlk : k < l.length := by
          by_contra hc2
          exact hdk (List.drop_eq_nil_of_le (le_of_not_lt hc2))
        rcases List.mem_cons.mp hc with rfl | hc
        · rw [List.length_take]
          omega
        · rw [← hcs] at hc
          exact ih (l.drop k) (by rw [List.length_drop]; omega) c hc

lemma chunks_mem_length_le (k : ℕ) (hk : k ≠ 0) :
    ∀ n (l : List α), l.length ≤ n → ∀ c ∈ chunks l k, c.length ≤ k := by
  intro n
  induction n with
  | zero =>
    intro l hl c hc
    have : l = [] := List.length_eq_zero.mp (Nat.le_zero.mp hl)
    rw [this, chunks_nil] at hc
    exact absurd hc (List.not_mem_nil c)
  | succ n ih =>
    intro l hl c hc
    rcases eq_or_ne l [] with rfl | hne
    · rw [chunks_nil] at hc
      exact absurd hc (List.not_mem_nil c)
    · rw [chunks_cons l k hk hne] at hc
      rcases List.mem_cons.mp hc with rfl | hc
      · rw [List.length_take]; omega
      · exact ih (l.drop k) (by
          rw [List.length_drop]
          have h1 : l.length ≠ 0 := fun h => hne (List.length_eq_zero.mp h)
          omega) c hc

/-! Helper lemmas about enumeration and `interpolate_missing`. -/

lemma getElem?_enum (l : List α) (i : ℕ) :
    l.enum[i]? = l[i]?.map fun a => (i, a) := by
  simpa [List.enum] using List.getElem?_enumFrom 0 l i

lemma mem_enumFrom_of_mem :
    ∀ (l : List α) (n : ℕ) (a : α), a ∈ l → ∃ i, (i, a) ∈ List.enumFrom n l := by
  intro l
  induction l with
  | nil => intro n a ha; exact absurd ha (List.not_mem_nil a)
  | cons b t ih =>
    intro n a ha
    rcases List.mem_cons.mp ha with rfl | ha
    · exact ⟨n, by rw [List.enumFrom_cons]; exact List.mem_cons_self _ _⟩
    · obtain ⟨i, hi⟩ := ih (n + 1) a ha
      exact ⟨i, by rw [List.enumFrom_cons]; exact List.mem_cons_of_mem _ hi⟩

lemma snd_mem_of_mem_enumFrom {p : ℕ × α} :
    ∀ (l : List α) (n : ℕ), p ∈ List.enumFrom n l → p.2 ∈ l := by
  intro l
  induction l with
  | nil => intro n hp; simp at hp
  | cons b t ih =>
    intro n hp
    rw [List.enumFrom_cons] at hp
    rcases List.mem_cons.mp hp with h | h
    · rw [h]; exact List.mem_cons_self _ _
    · exact List.mem_cons_of_mem _ (ih (n + 1) h)

/-- The `x_vals`/`y_vals` point list built by `interpolate_missing`. -/
lemma enumFrom_filterMap_none (l : List (Option ℚ)) (n : ℕ) (h : ∀ o ∈ l, o = none) :
    (List.enumFrom n l).filterMap (fun p => p.2.map fun y => ((p.1 : ℚ), y)) = [] := by
  rw [List.filterMap_eq_nil]
  intro p hp
  rw [h p.2 (snd_mem_of_mem_enumFrom l n hp)]
  rfl

lemma interp_pts_ne_nil (s : List (Option ℚ)) (v : ℚ) (hv : some v ∈ s) :
    s.enum.filterMap (fun p => p.2.map fun y => ((p.1 : ℚ), y)) ≠ [] := by
  obtain ⟨i, hi⟩ := mem_enumFrom_of_mem s 0 (some v) hv
  intro hnil
  rw [List.filterMap_eq_nil] at hnil
  have := hnil (i, some v) hi
  simp at this

lemma interpolate_missing_eq (s : List (Option ℚ)) (v : ℚ) (hv : some v ∈ s) :
    interpolate_missing s = some (s.enum.map fun p =>
      match p.2 with
      | some y => y
      | none => interpPoints (p.1 : ℚ)
          (s.enum.filterMap fun p => p.2.map fun y => ((p.1 : ℚ), y))) := by
  unfold interpolate_missing
  rw [if_neg]
  intro hcond
  have h2 := (Bool.and_eq_true _ _).mp hcond |>.2
  rw [List.isEmpty_iff] at h2
  exact interp_pts_ne_nil s v hv h2

lemma interpolate_missing_length (s : List (Option ℚ)) (d : List ℚ)
    (h : interpolate_missing s = some d) : d.length = s.length := by
  unfold interpolate_missing at h
  split at h
  · exact absurd h (by simp)
  · have := Option.some.inj h
    rw [← this, List.length_map, List.enum_length]

lemma interpPoints_le_head (x x0 y0 : ℚ) (rest : List (ℚ × ℚ)) (h : x ≤ x0) :
    interpPoints x ((x0, y0) :: rest) = y0 := by
  cases rest with
  | nil => rfl
  | cons b t =>
    rcases b with ⟨x1, y1⟩
    simp only [interpPoints, if_pos h]

lemma interpPoints_getLast (x : ℚ) :
    ∀ (pts : List (ℚ × ℚ)) (hne : pts ≠ []), (∀ p ∈ pts, p.1 < x) →
      interpPoints x pts = (pts.getLast hne).2 := by
  intro pts
  induction pts with
  | nil => intro h; exact absurd rfl h
  | cons a t ih =>
    intro hne hall
    rcases a with ⟨x0, y0⟩
    cases t with
    | nil => rfl
    | cons b t2 =>
      rcases b with ⟨x1, y1⟩
      have h0 : ¬ x ≤ x0 := not_le.mpr (hall (x0, y0) (List.mem_cons_self _ _))
      have h1 : ¬ x ≤ x1 :=
        not_le.mpr (hall (x1, y1) (List.mem_cons_of_mem _ (List.mem_cons_self _ _)))
      simp only [interpPoints, if_neg h0, if_neg h1]
      exact (ih (by simp) (fun p hp => hall p (List.mem_cons_of_mem _ hp))).trans
        (congrArg Prod.snd (List.getLast_cons (by simp)).symm)

/-! Helper lemmas about `resample`, `fetch_metric` and `get_metrics_go`. -/

lemma resample_zero (l : List (Option ℚ)) :
    resample l 0 = Except.error "ValueError: range() arg 3 must not be zero" := by
  unfold resample
  rw [if_pos rfl]

lemma resample_length (l : List (Option ℚ)) (k : ℕ) (pts : List ℚ)
    (h : resample l k = Except.ok pts) :
    pts = [] ∨ pts.length = (chunks l k).length := by
  unfold resample at h
  split at h
  · exact absurd h (by simp)
  · split at h
    · cases him : interpolate_missing ((chunks l k).map chunk_point) with
      | none => rw [him] at h; exact absurd h (by simp)
      | some dense =>
        rw [him] at h
        right
        have hld := interpolate_missing_length _ _ him
        have : dense.map round1 = pts := Except.ok.inj h
        rw [← this, List.length_map, hld, List.length_map]
    · left
      exact (Except.ok.inj h).symm

lemma fetch_metric_ok (raw : List (Option ℚ × ℤ)) (period : ℕ) (r : MetricResult)
    (h : fetch_metric raw period = Except.ok r) :
    1 < raw.length ∧ raw.length / 60 ≠ 0 ∧
      resample (raw.map Prod.fst) (raw.length / 60) = Except.ok r.points := by
  unfold fetch_metric at h
  split at h
  case isFalse => exact absurd h (by simp)
  case isTrue hlen =>
    refine ⟨hlen, ?_, ?_⟩
    · intro h0
      rw [List.length_map, h0, resample_zero] at h
      exact absurd h (by simp)
    · rw [List.length_map] at h
      cases hres : resample (raw.map Prod.fst) (raw.length / 60) with
      | error e => rw [hres] at h; exact absurd h (by simp)
      | ok points =>
        rw [hres] at h
        have := Except.ok.inj h
        rw [← this]

lemma chunk_count_le (n : ℕ) (h : 60 ≤ n) : (n - 1) / (n / 60) + 1 ≤ 119 := by
  have hk1 : 1 ≤ n / 60 := (Nat.one_le_div_iff (by norm_num)).mpr h
  have hn : n < (n / 60 + 1) * 60 := (Nat.div_lt_iff_lt_mul (by norm_num)).mp (by omega)
  have h1 : n - 1 ≤ (n / 60) * 60 + 58 := by omega
  have h2 : (n - 1) / (n / 60) ≤ ((n / 60) * 60 + 58) / (n / 60) := Nat.div_le_div_right h1
  have h3 : ((n / 60) * 60 + 58) / (n / 60) = 60 + 58 / (n / 60) :=
    Nat.mul_add_div (by omega) 60 58
  have h4 : 58 / (n / 60) ≤ 58 := Nat.div_le_self 58 (n / 60)
  omega

lemma get_metrics_go_error (backend : Backend) (period : ℕ) (m : String) (e : String)
    (l2 : List String) (hfail : fetch_metric_from backend m period = Except.error e) :
    ∀ (l1 : List String) (acc : List (String × List ℚ)) (lastData : Option MetricResult),
      (∀ m2 ∈ l1, ∃ r, fetch_metric_from backend m2 period = Except.ok r) →
      (get_metrics_go backend period acc lastData (l1 ++ m :: l2)).1 =
        Except.error ⟨metric_error_msg m, 401⟩ := by
  intro l1
  induction l1 with
  | nil =>
    intro acc lastData _
    simp [get_metrics_go, hfail]
  | cons a t ih =>
    intro acc lastData hok
    obtain ⟨r, hr⟩ := hok a (List.mem_cons_self a t)
    simp only [List.cons_append, get_metrics_go, hr]
    exact ih _ _ fun m2 hm2 => hok m2 (List.mem_cons_of_mem a hm2)

lemma get_metrics_go_last (backend : Backend) (period : ℕ) (mlast : String)
    (rl : MetricResult)
    (hlast : fetch_metric_from backend mlast period = Except.ok rl) :
    ∀ (l : List String) (acc : List (String × List ℚ)) (ld : Option MetricResult),
      (∀ m ∈ l, ∃ r, fetch_metric_from backend m period = Except.ok r) →
      ∃ env, (get_metrics_go backend period acc ld (l ++ [mlast])).1 = Except.ok env ∧
        env.start = rl.start ∧ env.end_ = rl.end_ ∧ env.step = rl.step := by
  intro l
  induction l with
  | nil =>
    intro acc ld _
    refine ⟨⟨rl.start, rl.end_, rl.step, acc ++ [(mlast, rl.points)]⟩, ?_, rfl, rfl, rfl⟩
    simp [get_metrics_go, hlast]
  | cons a t ih =>
    intro acc ld hok
    obtain ⟨r, hr⟩ := hok a (List.mem_cons_self a t)
    simp only [List.cons_append, get_metrics_go, hr]
    exact ih _ _ fun m hm => hok m (List.mem_cons_of_mem a hm)

/-! Claim theorems. -/

/-- Claim C1 is false on the code: the per-chunk filter `if sample` is a
truthiness test, so a raw sample of exactly 0 is discarded, not included in
the median values — a chunk whose only sample is 0 yields an absent point,
and an all-zero input resamples to the empty list, not to a list of
zeros. -/
theorem C1_counterexample :
    chunk_samples [some (0 : ℚ)] = [] ∧ ([] : List ℚ) ≠ [(0 : ℚ)] ∧
    chunk_point [some (0 : ℚ)] = none ∧
    resample (List.replicate 60 (some (0 : ℚ))) 1 = Except.ok [] ∧
    (Except.ok ([] : List ℚ) : Except String (List ℚ)) ≠
      Except.ok (List.replicate 60 (0 : ℚ)) := by
  refine ⟨by with_unfolding_all decide, by decide, by with_unfolding_all decide,
    by with_unfolding_all decide, by decide⟩

/-- Claim C1 (amended): in the Resampler's per-chunk filtering, a raw sample
whose value is exactly 0 is treated as falsy and excluded from the values
from which the chunk's median is computed; a chunk all of whose samples are
0 yields an absent point, not the point 0. -/
theorem C1_zero_excluded (chunk : List (Option ℚ)) :
    (0 : ℚ) ∉ chunk_samples chunk ∧
    ((∀ s ∈ chunk, s = some 0) → chunk_point chunk = none) := by
  constructor
  · intro h0
    unfold chunk_samples at h0
    have := (List.mem_filter.mp h0).2
    simp at this
  · intro hall
    have hcs : chunk_samples chunk = [] := by
      unfold chunk_samples
      rw [List.filter_eq_nil]
      intro a ha
      obtain ⟨o, ho, hoa⟩ := List.mem_filterMap.mp ha
      rw [hall o ho] at hoa
      have : a = 0 := by simpa using hoa.symm
      simp [this]
    unfold chunk_point
    rw [if_pos hcs]

/-- Witness for C1 (amended) at the concrete chunk `[some 0, some 0]`. -/
theorem C1_zero_excluded_witness :
    (∀ s ∈ [some (0 : ℚ), some 0], s = some 0) ∧
    chunk_point [some (0 : ℚ), some 0] = none ∧
    (0 : ℚ) ∉ chunk_samples [some (0 : ℚ), some 0] :=
  ⟨by decide, (C1_zero_excluded [some 0, some 0]).2 (by decide),
    (C1_zero_excluded [some 0, some 0]).1⟩

/-- Claim C2 is false on the code: a successful fetch of a 61-sample series
(length at least 2, so the fetch succeeds) produces 61 points, because the
chunk size is `61 // 60 = 1` and the stride partition then yields 61
chunks. -/
theorem C2_counterexample :
    raw61.length = 61 ∧
    fetch_metric raw61 3600 = Except.ok ⟨0, 60, 60, List.replicate 61 1⟩ ∧
    ¬ (List.replicate 61 (1 : ℚ)).length ≤ 60 := by
  refine ⟨by decide, by with_unfolding_all decide, by decide⟩

/-- Claim C2 (amended): for every metric fetch that succeeds, the resulting
points sequence has length at most 119 (= 2·60 − 1); it can exceed 60 —
up to 119 — exactly when 60 does not divide the raw sample count. -/
theorem C2_points_length_le (raw : List (Option ℚ × ℤ)) (period : ℕ) (r : MetricResult)
    (h : fetch_metric raw period = Except.ok r) : r.points.length ≤ 119 := by
  obtain ⟨hlen, hk, hres⟩ := fetch_metric_ok raw period r h
  rcases resample_length _ _ _ hres with hnil | hchunks
  · rw [hnil]; simp
  · have h60 : 60 ≤ (raw.map Prod.fst).length := by
      rw [List.length_map]
      by_contra hc
      exact hk (Nat.div_eq_of_lt (by omega))
    have hne : raw.map Prod.fst ≠ [] := by
      intro hn
      rw [hn] at h60
      simp at h60
    rw [hchunks, chunks_length (raw.length / 60)
      (by rw [← List.length_map raw Prod.fst] at hk ⊢; exact hk)
      (raw.map Prod.fst).length (raw.map Prod.fst) le_rfl hne]
    rw [List.length_map] at h60 ⊢
    exact chunk_count_le raw.length h60

/-- Witness for C2 (amended) at the 61-sample series `raw61`. -/
theorem C2_points_length_le_witness :
    fetch_metric raw61 3600 = Except.ok ⟨0, 60, 60, List.replicate 61 1⟩ ∧
    (MetricResult.mk 0 60 60 (List.replicate 61 1)).points.length ≤ 119 :=
  ⟨by with_unfolding_all decide,
    C2_points_length_le raw61 3600 ⟨0, 60, 60, List.replicate 61 1⟩
      (by with_unfolding_all decide)⟩

/-- Claim C3: with at least 60 raw values and `targetCount = 60`, the
Resampler's stride partition into chunks of size `len // 60` concatenates
back to the input, every chunk except possibly the last has exactly that
size, and no chunk exceeds it (the final chunk may be smaller). -/
theorem C3_chunk_partition (l : List (Option ℚ)) (h : 60 ≤ l.length) :
    (chunks l (l.length / 60)).flatten = l ∧
    (∀ c ∈ (chunks l (l.length / 60)).dropLast, c.length = l.length / 60) ∧
    (∀ c ∈ chunks l (l.length / 60), c.length ≤ l.length / 60) := by
  have hk : l.length / 60 ≠ 0 := by
    have := (Nat.one_le_div_iff (show 0 < 60 by norm_num)).mpr h
    omega
  exact ⟨chunks_flatten _ hk l.length l le_rfl,
    chunks_dropLast_length _ hk l.length l le_rfl,
    chunks_mem_length_le _ hk l.length l le_rfl⟩

/-- Witness for C3 at a concrete 61-element list (chunk size 1). -/
theorem C3_chunk_partition_witness :
    60 ≤ (List.replicate 61 (some (7 : ℚ))).length ∧
    (chunks (List.replicate 61 (some (7 : ℚ)))
        ((List.replicate 61 (some (7 : ℚ))).length / 60)).flatten =
      List.replicate 61 (some (7 : ℚ)) :=
  ⟨by decide, (C3_chunk_partition (List.replicate 61 (some 7)) (by decide)).1⟩

/-- Claim C6: when every raw sample is absent or falsy (and the chunk size
is positive, so the chunking itself succeeds), every chunk's point is
absent, `any(points)` is false, and the Resampler returns the empty
sequence — not 60 zeros. -/
theorem C6_all_falsy_empty (l : List (Option ℚ)) (k : ℕ) (hk : k ≠ 0)
    (h : ∀ s ∈ l, s = none ∨ s = some 0) : resample l k = Except.ok [] := by
  unfold resample
  rw [if_neg hk]
  have hany : ((chunks l k).map chunk_point).any (fun p => decide (p.getD 0 ≠ 0)) = false := by
    rw [List.any_eq_false]
    intro p hp
    obtain ⟨c, hc, rfl⟩ := List.mem_map.mp hp
    have hcs : chunk_samples c = [] := by
      unfold chunk_samples
      rw [List.filter_eq_nil]
      intro a ha
      obtain ⟨o, ho, hoa⟩ := List.mem_filterMap.mp ha
      rcases h o (chunks_mem_sublist k hk l.length l le_rfl c hc o ho) with rfl | rfl
      · simp at hoa
      · have : a = 0 := by simpa using hoa.symm
        simp [this]
    unfold chunk_point
    rw [if_pos hcs]
    simp
  rw [hany]
  simp

/-- Witness for C6 at a mixed absent/zero input with chunk size 2. -/
theorem C6_all_falsy_empty_witness :
    (2 : ℕ) ≠ 0 ∧
    (∀ s ∈ List.replicate 30 (none : Option ℚ) ++ List.replicate 30 (some 0),
      s = none ∨ s = some 0) ∧
    resample (List.replicate 30 (none : Option ℚ) ++ List.replicate 30 (some 0)) 2 =
      Except.ok [] :=
  ⟨by decide, by decide,
    C6_all_falsy_empty (List.replicate 30 none ++ List.replicate 30 (some 0)) 2
      (by decide) (by decide)⟩

/-- Claim C8: an unrecognized period name is rejected with the 401
invalid-period error body, and the backend-call trace is empty — no metric
fetch is attempted. -/
theorem C8_invalid_period (backend : Backend) (pn : String)
    (h : PERIODS.lookup pn = none) :
    get_metrics backend pn =
      (Except.error ⟨"Invalid value for \"period\".", 401⟩, []) := by
  unfold get_metrics
  rw [h]

/-- Witness for C8 at `period=bogus`. -/
theorem C8_invalid_period_witness :
    PERIODS.lookup "bogus" = none ∧
    get_metrics backend60 "bogus" =
      (Except.error ⟨"Invalid value for \"period\".", 401⟩, []) :=
  ⟨by decide, C8_invalid_period backend60 "bogus" (by decide)⟩

/-- Claim C7: with a valid period, if any tracked metric's fetch fails then
the whole request fails at the first failing metric in the fixed iteration
order: the response is the 401 error envelope naming that metric, and no
per-metric points are returned (the error envelope carries only the error
string and status). -/
theorem C7_fail_fast (backend : Backend) (pn : String) (period : ℕ)
    (l1 l2 : List String) (m : String) (e : String)
    (hp : PERIODS.lookup pn = some period)
    (hm : METRICS = l1 ++ m :: l2)
    (hok : ∀ m2 ∈ l1, ∃ r, fetch_metric_from backend m2 period = Except.ok r)
    (hfail : fetch_metric_from backend m period = Except.error e) :
    (get_metrics backend pn).1 = Except.error ⟨metric_error_msg m, 401⟩ := by
  unfold get_metrics
  rw [hp, hm]
  exact get_metrics_go_error backend period m e l2 hfail l1 [] none hok

/-- Witness for C7: a backend that fails for `domInteractive` (the third
metric) after `responseStart` and `firstPaint` succeed. -/
theorem C7_fail_fast_witness :
    PERIODS.lookup "hour" = some 3600 ∧
    METRICS = ["responseStart", "firstPaint"] ++ "domInteractive" ::
      ["loadEventEnd", "saveTiming"] ∧
    fetch_metric_from backendFail3 "domInteractive" 3600 =
      Except.error "connection refused" ∧
    (get_metrics backendFail3 "hour").1 =
      Except.error ⟨metric_error_msg "domInteractive", 401⟩ :=
  ⟨by decide, by decide, by decide,
    C7_fail_fast backendFail3 "hour" 3600 ["responseStart", "firstPaint"]
      ["loadEventEnd", "saveTiming"] "domInteractive" "connection refused"
      (by decide) (by decide)
      (by
        intro m2 hm2
        rcases List.mem_cons.mp hm2 with rfl | hm2
        · exact ⟨⟨0, 59, 60, List.replicate 60 1⟩, by with_unfolding_all decide⟩
        · rcases List.mem_cons.mp hm2 with rfl | hm2
          · exact ⟨⟨0, 59, 60, List.replicate 60 1⟩, by with_unfolding_all decide⟩
          · exact absurd hm2 (List.not_mem_nil m2))
      (by decide)⟩

/-- Claim C9: when every tracked metric's fetch succeeds, the envelope's
`start`, `end` and `step` are those of the last metric processed,
`saveTiming` (the Python variable `data` holds the last loop iteration's
result), regardless of the other four metrics' fields. -/
theorem C9_envelope_from_last (backend : Backend) (pn : String) (period : ℕ)
    (r5 : MetricResult)
    (hp : PERIODS.lookup pn = some period)
    (hok : ∀ m ∈ METRICS, ∃ r, fetch_metric_from backend m period = Except.ok r)
    (h5 : fetch_metric_from backend "saveTiming" period = Except.ok r5) :
    ∃ env, (get_metrics backend pn).1 = Except.ok env ∧
      env.start = r5.start ∧ env.end_ = r5.end_ ∧ env.step = r5.step := by
  unfold get_metrics
  rw [hp]
  have hM : METRICS =
      ["responseStart", "firstPaint", "domInteractive", "loadEventEnd"] ++ ["saveTiming"] :=
    rfl
  rw [hM]
  exact get_metrics_go_last backend period "saveTiming" r5 h5 _ [] none
    fun m hm => hok m (by rw [hM]; exact List.mem_append_left _ hm)

/-- Witness for C9 with a backend answering every metric with the same
60-sample series. -/
theorem C9_envelope_from_last_witness :
    PERIODS.lookup "hour" = some 3600 ∧
    fetch_metric_from backend60 "saveTiming" 3600 =
      Except.ok ⟨0, 59, 60, List.replicate 60 1⟩ ∧
    ∃ env, (get_metrics backend60 "hour").1 = Except.ok env ∧
      env.start = 0 ∧ env.end_ = 59 ∧ env.step = 60 :=
  ⟨by decide, by with_unfolding_all decide,
    C9_envelope_from_last backend60 "hour" 3600 ⟨0, 59, 60, List.replicate 60 1⟩
      (by decide)
      (by
        intro m hm
        exact ⟨⟨0, 59, 60, List.replicate 60 1⟩, by with_unfolding_all rfl⟩)
      (by with_unfolding_all decide)⟩

/-- Claim C10: a backend series with at least 2 but fewer than 60 samples
gives `samples_per_point = len // 60 = 0`, so the chunking `range` raises,
`fetch_metric` fails with that `ValueError`, and when such a series backs the
first metric of a valid-period request, `get_metrics` converts the failure
into the metric-unavailable 401 error. -/
theorem C10_short_series_fails (raw : List (Option ℚ × ℤ)) (backend : Backend)
    (pn : String) (period : ℕ)
    (h2 : 2 ≤ raw.length) (h60 : raw.length < 60)
    (hp : PERIODS.lookup pn = some period)
    (hb : backend "responseStart" = Except.ok raw) :
    raw.length / 60 = 0 ∧
    fetch_metric raw period = Except.error "ValueError: range() arg 3 must not be zero" ∧
    (get_metrics backend pn).1 = Except.error ⟨metric_error_msg "responseStart", 401⟩ := by
  have hdiv : raw.length / 60 = 0 := Nat.div_eq_of_lt h60
  have hfetch : fetch_metric raw period =
      Except.error "ValueError: range() arg 3 must not be zero" := by
    unfold fetch_metric
    rw [if_pos (by omega), List.length_map, hdiv, resample_zero]
  have hfail : fetch_metric_from backend "responseStart" period =
      Except.error "ValueError: range() arg 3 must not be zero" := by
    unfold fetch_metric_from
    rw [hb]
    exact hfetch
  refine ⟨hdiv, hfetch, ?_⟩
  unfold get_metrics
  rw [hp]
  have hM : METRICS = [] ++ "responseStart" ::
      ["firstPaint", "domInteractive", "loadEventEnd", "saveTiming"] := rfl
  rw [hM]
  exact get_metrics_go_error backend period "responseStart" _
    ["firstPaint", "domInteractive", "loadEventEnd", "saveTiming"] hfail [] [] none
    (by intro m2 hm2; exact absurd hm2 (List.not_mem_nil m2))

/-- Witness for C10 at a 2-sample series backing every metric. -/
theorem C10_short_series_fails_witness :
    2 ≤ ([(some (1 : ℚ), (0 : ℤ)), (some 2, 60)] : List (Option ℚ × ℤ)).length ∧
    ([(some (1 : ℚ), (0 : ℤ)), (some 2, 60)] : List (Option ℚ × ℤ)).length < 60 ∧
    PERIODS.lookup "day" = some 86400 ∧
    backend2 "responseStart" = Except.ok [(some 1, 0), (some 2, 60)] ∧
    fetch_metric [(some (1 : ℚ), (0 : ℤ)), (some 2, 60)] 86400 =
      Except.error "ValueError: range() arg 3 must not be zero" ∧
    (get_metrics backend2 "day").1 =
      Except.error ⟨metric_error_msg "responseStart", 401⟩ := by
  have h := C10_short_series_fails [(some 1, 0), (some 2, 60)] backend2 "day" 86400
    (by decide) (by decide) (by decide) (by decide)
  exact ⟨by decide, by decide, by decide, by decide, h.2.1, h.2.2⟩

/-- Value of the filled list at an absent index: the interpolant over the
present points. -/
lemma interpolate_missing_at_none (s : List (Option ℚ)) (d : List ℚ) (v0 : ℚ)
    (hv : some v0 ∈ s)
    (hd : interpolate_missing s = some d)
    (i : ℕ) (hi : s[i]? = some none) :
    d[i]? = some (interpPoints (i : ℚ)
      (s.enum.filterMap fun p => p.2.map fun y => ((p.1 : ℚ), y))) := by
  rw [interpolate_missing_eq s v0 hv] at hd
  rw [← Option.some.inj hd, List.getElem?_map, getElem?_enum, hi]
  rfl

/-- The present-point list of `l1 ++ some v :: l2` splits around `v`. -/
lemma pts_decomp (l1 l2 : List (Option ℚ)) (v : ℚ) :
    ((l1 ++ some v :: l2).enum.filterMap fun p => p.2.map fun y => ((p.1 : ℚ), y)) =
      (l1.enum.filterMap fun p => p.2.map fun y => ((p.1 : ℚ), y)) ++
      ((l1.length : ℚ), v) ::
        ((List.enumFrom (l1.length + 1) l2).filterMap fun p =>
          p.2.map fun y => ((p.1 : ℚ), y)) := by
  rw [List.enum_append, List.filterMap_append, List.enumFrom_cons, List.filterMap_cons]
  rfl

/-- Claim C4: for every sequence with at least one present value, the
Interpolator returns a filled sequence of the same length in which every
index that held a present value holds that same value unchanged. -/
theorem C4_fillGaps_preserves (s : List (Option ℚ)) (v0 : ℚ) (hv : some v0 ∈ s) :
    ∃ d, interpolate_missing s = some d ∧ d.length = s.length ∧
      ∀ (i : ℕ) (v : ℚ), s[i]? = some (some v) → d[i]? = some v := by
  refine ⟨_, interpolate_missing_eq s v0 hv, ?_, ?_⟩
  · rw [List.length_map, List.enum_length]
  · intro i v hiv
    rw [List.getElem?_map, getElem?_enum, hiv]
    rfl

/-- Witness for C4 at the sequence `[some 1, none, some 3]`. -/
theorem C4_fillGaps_preserves_witness :
    some (1 : ℚ) ∈ [some (1 : ℚ), none, some 3] ∧
    ∃ d, interpolate_missing [some (1 : ℚ), none, some 3] = some d ∧
      d.length = ([some (1 : ℚ), none, some 3] : List (Option ℚ)).length ∧
      ∀ (i : ℕ) (v : ℚ),
        ([some (1 : ℚ), none, some 3] : List (Option ℚ))[i]? = some (some v) →
        d[i]? = some v :=
  ⟨by decide, C4_fillGaps_preserves [some 1, none, some 3] 1 (by decide)⟩

/-- Claim C5: absent entries before the first present entry are filled with
the first present value, and absent entries after the last present entry are
filled with the last present value (flat clamping at both edges). -/
theorem C5_edge_clamping :
    (∀ (l1 l2 : List (Option ℚ)) (v : ℚ) (d : List ℚ),
      (∀ o ∈ l1, o = none) →
      interpolate_missing (l1 ++ some v :: l2) = some d →
      ∀ i < l1.length, d[i]? = some v) ∧
    (∀ (l1 l2 : List (Option ℚ)) (v : ℚ) (d : List ℚ),
      (∀ o ∈ l2, o = none) →
      interpolate_missing (l1 ++ some v :: l2) = some d →
      ∀ i, l1.length < i → i < (l1 ++ some v :: l2).length → d[i]? = some v) := by
  constructor
  · intro l1 l2 v d h1 hd i hi
    have hv : some v ∈ l1 ++ some v :: l2 :=
      List.mem_append_right l1 (List.mem_cons_self _ _)
    have hsi : (l1 ++ some v :: l2)[i]? = some none := by
      rw [List.getElem?_append, if_pos hi, List.getElem?_eq_getElem hi]
      rw [h1 (l1[i]) (List.getElem_mem hi)]
    rw [interpolate_missing_at_none (l1 ++ some v :: l2) d v hv hd i hsi]
    rw [pts_decomp l1 l2 v]
    have hpre : (l1.enum.filterMap fun p => p.2.map fun y => ((p.1 : ℚ), y)) = [] := by
      have he : l1.enum = List.enumFrom 0 l1 := rfl
      rw [he]
      exact enumFrom_filterMap_none l1 0 h1
    rw [hpre, List.nil_append]
    rw [interpPoints_le_head _ _ _ _ (by exact_mod_cast le_of_lt hi)]
  · intro l1 l2 v d h2 hd i hi hilen
    have hv : some v ∈ l1 ++ some v :: l2 :=
      List.mem_append_right l1 (List.mem_cons_self _ _)
    have hsi : (l1 ++ some v :: l2)[i]? = some none := by
      rw [List.getElem?_append_right (le_of_lt hi)]
      have hj : i - l1.length = (i - l1.length - 1) + 1 := by omega
      rw [hj, List.getElem?_cons_succ]
      have hjlen : i - l1.length - 1 < l2.length := by
        rw [List.length_append, List.length_cons] at hilen
        omega
      rw [List.getElem?_eq_getElem hjlen]
      rw [h2 (l2[i - l1.length - 1]) (List.getElem_mem hjlen)]
    rw [interpolate_missing_at_none (l1 ++ some v :: l2) d v hv hd i hsi]
    rw [pts_decomp l1 l2 v]
    have hpost : ((List.enumFrom (l1.length + 1) l2).filterMap fun p =>
        p.2.map fun y => ((p.1 : ℚ), y)) = [] :=
      enumFrom_filterMap_none l2 (l1.length + 1) h2
    rw [hpost]
    have hne : ((l1.enum.filterMap fun p => p.2.map fun y => ((p.1 : ℚ), y)) ++
        [((l1.length : ℚ), v)]) ≠ [] := by simp
    rw [interpPoints_getLast (i : ℚ) _ hne ?_, List.getLast_concat]
    intro p hp
    rcases List.mem_append.mp hp with hp | hp
    · obtain ⟨q, hq, hfq⟩ := List.mem_filterMap.mp hp
      cases hq2 : q.2 with
      | none => rw [hq2] at hfq; exact absurd hfq (by simp)
      | some y =>
        rw [hq2] at hfq
        have hqlt : q.1 < l1.length := by
          have he : l1.enum = List.enumFrom 0 l1 := rfl
          rw [he] at hq
          have := (List.mem_enumFrom ((show (q.1, q.2) = q by rfl) ▸ hq)).2.1
          omega
        have hp1 : p.1 = (q.1 : ℚ) := by
          have := Option.some.inj hfq
          rw [← this]
        rw [hp1]
        exact_mod_cast lt_trans hqlt hi
    · rw [List.mem_singleton.mp hp]
      show ((l1.length : ℚ)) < (i : ℚ)
      exact_mod_cast hi

/-- Witness for C5 at the sequence `[none, none, some 5, none]`: the two
leading absent entries and the trailing absent entry are all clamped
to 5. -/
theorem C5_edge_clamping_witness :
    (∀ o ∈ ([none, none] : List (Option ℚ)), o = none) ∧
    (∀ o ∈ ([none] : List (Option ℚ)), o = none) ∧
    interpolate_missing ([none, none] ++ some (5 : ℚ) :: [none]) = some [5, 5, 5, 5] ∧
    ([5, 5, 5, 5] : List ℚ)[0]? = some (5 : ℚ) ∧
    ([5, 5, 5, 5] : List ℚ)[3]? = some (5 : ℚ) :=
  ⟨by decide, by decide, by with_unfolding_all decide,
    C5_edge_clamping.1 [none, none] [none] 5 [5, 5, 5, 5] (by decide)
      (by with_unfolding_all decide) 0 (by decide),
    C5_edge_clamping.2 [none, none] [none] 5 [5, 5, 5, 5] (by decide)
      (by with_unfolding_all decide) 3 (by decide) (by decide)⟩
